import Mathlib

/-!
Verification of the money-rag ingestion and query pipeline.

This file gives a shallow embedding of the core operations of the
repository (the MoneyRAG class in money_rag.py and the query guard in
mcp_sql_server.py) and proves the central correctness properties:
amount-sign normalization, the read-only SQL guard, merchant-enrichment
caching and fault tolerance, vector-collection rebuild, the empty-corpus
guard, per-file mapping-failure propagation, and chat answer extraction.

Modelling conventions:
  - Python dictionaries used as caches become functions to Option.
  - Monetary amounts become rationals; the only arithmetic the pipeline
    performs on them is negation, which is exact in IEEE floats as well,
    so the rational model is faithful for the properties proved here.
  - External effects (LLM mapping call, web search, CSV parsing) become
    explicit oracles passed as arguments; a raised Python exception
    becomes an error value.
  - The concurrent enrichment batch (asyncio.gather over per-description
    tasks, money_rag.py lines 125-141) is sequentialized: within one
    batch the descriptions are pairwise distinct (pandas unique), so no
    two tasks read or write the same cache key and the sequential fold
    computes the same per-description results, final cache and number of
    external calls as any interleaving.
-/

namespace MoneyRag

/-! ## SQL query guard (mcp_sql_server.py, query_database) -/

/-- Python str.strip: drop whitespace from both ends. Defined over the
character list so that it evaluates by kernel reduction; agrees with the
library trim on the queries the guard inspects. -/
def pyStrip (s : String) : String :=
  ⟨((s.data.dropWhile Char.isWhitespace).reverse.dropWhile Char.isWhitespace).reverse⟩

/-- Python str.upper, faithful on the ASCII keywords the guard inspects. -/
def pyUpper (s : String) : String :=
  ⟨s.data.map Char.toUpper⟩

/-- Python str.startswith. -/
def pyStartsWith (s pre : String) : Bool :=
  pre.data.isPrefixOf s.data

/-- Substring test, modelling the Python expression
fragment forbidden_word in query_upper. -/
def containsSub (hay needle : String) : Bool :=
  hay.data.tails.any fun t => needle.data.isPrefixOf t

/-- The forbidden keyword list of mcp_sql_server.py line 78. -/
def forbidden : List String :=
  ["INSERT", "UPDATE", "DELETE", "DROP", "ALTER", "CREATE", "REPLACE", "TRUNCATE"]

/-- Outcome of the query_database guard: either an error string returned
to the caller, or the query reaches the sqlite execution block (which
itself catches sqlite errors; the claims here concern only the guard). -/
inductive ToolOutcome where
  | rejected (msg : String)
  | execute (query : String)
deriving DecidableEq

/-- Shallow embedding of query_database (mcp_sql_server.py lines 72-85):
query_upper is the stripped upper-cased input; non SELECT/PRAGMA prefixes
and forbidden keywords are rejected with an error string, everything else
is executed. -/
def query_database (query : String) : ToolOutcome :=
  let query_upper := pyUpper (pyStrip query)
  if ¬ (pyStartsWith query_upper "SELECT" || pyStartsWith query_upper "PRAGMA") then
    .rejected "Error: Only SELECT and PRAGMA queries are allowed"
  else if forbidden.any fun w => containsSub query_upper w then
    .rejected "Error: Query contains forbidden operation. Only SELECT queries allowed."
  else
    .execute query

/-! ## Chat answer extraction (money_rag.py, MoneyRAG.chat, lines 229-241) -/

/-- One element of a list-shaped message content. A Python dict block is
modelled by its type field and its text field, each possibly absent;
anything that is not a dict is nonDict. -/
inductive ContentBlock where
  | dict (ty : Option String) (text : Option String)
  | nonDict
deriving DecidableEq

/-- Message content returned by the agent: a plain string (OpenAI shape)
or a list of blocks (Gemini shape). -/
inductive MessageContent where
  | ofString (s : String)
  | ofList (blocks : List ContentBlock)
deriving DecidableEq

/-- The contribution of one block to the answer: a dict whose type field
equals text contributes block.get on the text key with default empty
string; every other block contributes nothing. -/
def block_text_part : ContentBlock → Option String
  | .dict ty text => if ty = some "text" then some (text.getD "") else none
  | .nonDict => none

/-- Whether a block is a dict of type text (the blocks the loop keeps). -/
def is_text_dict : ContentBlock → Bool
  | .dict ty _ => ty = some "text"
  | .nonDict => false

/-- The text a kept block contributes. -/
def text_of : ContentBlock → String
  | .dict _ text => text.getD ""
  | .nonDict => ""

/-- Shallow embedding of the extraction at the end of MoneyRAG.chat:
a string is returned as is; a list is folded by appending, for each dict
block of type text, its text value (default empty string), then joining
the parts with newline. -/
def chat_extract_answer : MessageContent → String
  | .ofString s => s
  | .ofList blocks => String.intercalate "\n" (blocks.filterMap block_text_part)

/-! ## Merchant enrichment (money_rag.py lines 122-144) -/

/-- The session merchant cache self.merchant_cache, a Python dict from
description to enrichment string. -/
def Cache : Type := String → Option String

/-- Dict assignment cache[k] = v. -/
def cache_insert (c : Cache) (k v : String) : Cache :=
  fun x => if x = k then some v else c x

/-- Outcome of one call of the external web search tool: a result string,
or a raised exception carrying a message. -/
inductive SearchOutcome where
  | ok (result : String)
  | fail (err : String)
deriving DecidableEq

/-- The external search capability (self.search_tool.ainvoke). -/
def SearchTool : Type := String → SearchOutcome

/-- Shallow embedding of the inner coroutine get_merchant_info
(money_rag.py lines 125-138) for one description: on a cache hit the
cached value is returned with no external call; on a miss one external
search is issued; on success the result is written to the cache and
returned; on an exception the string Unknown is returned and the cache is
left unchanged (the except branch only logs and returns). The Bool
records whether an external call was issued. -/
def get_merchant_info (search : SearchTool) (cache : Cache) (description : String) :
    String × Cache × Bool :=
  match cache description with
  | some v => (v, cache, false)
  | none =>
    match search description with
    | .ok result => (result, cache_insert cache description result, true)
    | .fail _ => ("Unknown", cache, true)

/-- Shallow embedding of the enrichment batch: tasks for every
description, gathered; sequentialized as explained in the header. Returns
the association list zip of descriptions with their results (the dict
desc_map of line 143), the final cache, and the number of external search
calls issued. -/
def enrich_batch (search : SearchTool) : Cache → List String → List (String × String) × Cache × ℕ
  | cache, [] => ([], cache, 0)
  | cache, d :: ds =>
    let step := get_merchant_info search cache d
    let rest := enrich_batch search step.2.1 ds
    ((d, step.1) :: rest.1, rest.2.1, (if step.2.2 then 1 else 0) + rest.2.2)

/-- First-occurrence deduplication, modelling pandas Series.unique on the
description column (money_rag.py line 122). -/
def py_unique_aux (seen : List String) : List String → List String
  | [] => []
  | d :: ds => if d ∈ seen then py_unique_aux seen ds else d :: py_unique_aux (d :: seen) ds

/-- Pandas unique: the distinct values in first-occurrence order. -/
def py_unique (l : List String) : List String := py_unique_aux [] l

/-! ## CSV ingestion (money_rag.py, MoneyRAG._ingest_csv, lines 73-148) -/

/-- One raw CSV row after column selection: the values found in the
mapped date, description, amount and category columns. Column selection
by name (df applied to the mapped column names) is abstracted: the fields
hold the selected values, and pandas to_numeric on the amount is already
applied (amounts as rationals). The field cat holds the value of the
category column when the mapping names one. -/
structure RawRow where
  date : String
  desc : String
  amount : ℚ
  cat : String
deriving DecidableEq

/-- The sign-relevant part of the LLM-produced column mapping: the
sign_convention string (arbitrary LLM output) and the optional category
column name (None becomes none; the three required column names are
abstracted into RawRow as explained there). -/
structure ColumnMapping where
  sign_convention : String
  category_col : Option String
deriving DecidableEq

/-- One persisted canonical transaction row (the columns of standard_df,
written to the transactions table). The uuid4 identifier is abstracted to
the row index within its file batch; pandas to_datetime is abstracted to
the identity on the date string. -/
structure StdRow where
  id : ℕ
  transaction_date : String
  description : String
  amount : ℚ
  category : String
  source_file : String
  enriched_info : String
deriving DecidableEq

/-- Amount normalization (money_rag.py line 116): negate exactly when the
inferred sign convention is spending_is_negative, otherwise keep the raw
amount (the Python conditional expression raw_amounts * -1 if convention
equals spending_is_negative else raw_amounts). -/
def normalize_amount (sign_convention : String) (raw : ℚ) : ℚ :=
  if sign_convention = "spending_is_negative" then raw * -1 else raw

/-- Category assignment (money_rag.py line 117): the value of the mapped
category column when category_col is truthy (present and not the empty
string), else the literal Uncategorized. -/
def assign_category (category_col : Option String) (cat : String) : String :=
  match category_col with
  | some c => if c = "" then "Uncategorized" else cat
  | none => "Uncategorized"

/-- Shallow embedding of MoneyRAG._ingest_csv after the mapping call:
build the unique description list, run the enrichment batch against the
session cache, then build one standard row per raw row with the
normalized amount, the category default, the source file name, and
enriched_info given by looking the description up in desc_map with pandas
fillna replacing a missing entry by the empty string. Returns the rows
appended to the transactions table, the updated session cache and the
number of external search calls issued. -/
def ingest_csv (search : SearchTool) (cache : Cache) (mapping : ColumnMapping)
    (source_file : String) (rows : List RawRow) : List StdRow × Cache × ℕ :=
  let unique_descriptions := py_unique (rows.map (·.desc))
  let batch := enrich_batch search cache unique_descriptions
  let desc_map := batch.1
  let out := rows.enum.map fun p =>
    { id := p.1
      transaction_date := p.2.date
      description := p.2.desc
      amount := normalize_amount mapping.sign_convention p.2.amount
      category := assign_category mapping.category_col p.2.cat
      source_file := source_file
      enriched_info := (desc_map.lookup p.2.desc).getD "" }
  (out, batch.2.1, batch.2.2)

/-! ## Session setup (money_rag.py, MoneyRAG.setup_session, lines 64-71) -/

/-- The schema-mapping step for one file (the LLM chain of lines 107-108):
either a well-formed column mapping, or a raised mapping error (the JSON
output parser raising on a malformed completion). -/
def Mapper : Type := String → Except String ColumnMapping

/-- CSV parsing, abstracted: the raw rows each path parses to. -/
def CsvData : Type := String → List RawRow

/-- Shallow embedding of the ingestion loop of setup_session: the paths
are ingested in order, appending each output to the transactions table
and threading the session cache; a mapping error raised by one file
propagates (the loop has no exception handler), so it is returned
together with the table and cache as they were at the raise. -/
def setup_session_ingest (mapper : Mapper) (data : CsvData) (search : SearchTool) :
    List String → List StdRow → Cache → List StdRow × Cache × Option String
  | [], db, cache => (db, cache, none)
  | p :: ps, db, cache =>
    match mapper p with
    | .error e => (db, cache, some e)
    | .ok mapping =>
      let step := ingest_csv search cache mapping p (data p)
      setup_session_ingest mapper data search ps (db ++ step.1) step.2.1

/-! ## Vector indexing (money_rag.py, MoneyRAG._sync_to_qdrant, lines 150-187) -/

/-- One vector record: the embedded text plus the metadata columns id,
amount, category, transaction_date (the date serialized as text). -/
structure VectorRecord where
  text : String
  id : ℕ
  amount : ℚ
  category : String
  transaction_date : String
deriving DecidableEq

/-- The state of the local qdrant client: the transactions collection
contents, or none when the collection does not exist yet. -/
structure QdrantClientState where
  collection : Option (List VectorRecord)
deriving DecidableEq

/-- Text composed for embedding (money_rag.py lines 174-181): description
and category, extended with the enrichment when it is neither empty nor
Unknown. -/
def build_vector_text (row : StdRow) : String :=
  let base_text := row.description ++ " (" ++ row.category ++ ")"
  if row.enriched_info ≠ "" ∧ row.enriched_info ≠ "Unknown" then
    base_text ++ " - " ++ row.enriched_info
  else
    base_text

/-- The vector record built from one persisted transaction row. -/
def build_vector_record (row : StdRow) : VectorRecord :=
  { text := build_vector_text row
    id := row.id
    amount := row.amount
    category := row.category
    transaction_date := row.transaction_date }

/-- Shallow embedding of _sync_to_qdrant: read the full transactions
table; if it is empty raise (ValueError, before any collection call), so
the client state is returned unchanged with the error; otherwise
recreate_collection destroys the previous contents and add_texts inserts
one record per row. Returns the final client state and the outcome. -/
def sync_to_qdrant (client : QdrantClientState) (db : List StdRow) :
    QdrantClientState × Except String (List VectorRecord) :=
  if db.isEmpty then
    (client, .error "No transactions found in database. Please ingest CSV files first.")
  else
    let records := db.map build_vector_record
    let recreated : QdrantClientState := { collection := some [] }
    let filled : QdrantClientState :=
      { collection := some ((recreated.collection.getD []) ++ records) }
    (filled, .ok records)

/-! ## Concrete oracles used by witnesses and counterexamples -/

/-- The empty session cache. -/
def empty_cache : Cache := fun _ => none

/-- A search tool that fails on every description. -/
def fail_search : SearchTool := fun _ => .fail "boom"

/-- A search tool that fails exactly on the description ACME and succeeds
elsewhere with a fixed annotation. -/
def acme_fail_search : SearchTool :=
  fun d => if d = "ACME" then .fail "timeout" else .ok ("store " ++ d)

/-- A search tool that always succeeds with a fixed annotation. -/
def ok_search : SearchTool := fun d => .ok ("store " ++ d)

/-- A concrete persisted transaction row used by witnesses. -/
def w5_row : StdRow :=
  StdRow.mk 0 "2024-01-01" "STARBUCKS" 5 "Food" "a.csv" ""

/-- A second concrete persisted transaction row used by witnesses. -/
def w5_row2 : StdRow :=
  StdRow.mk 1 "2024-01-02" "TARGET" 7 "Shopping" "a.csv" "store"

/-- A mapper that raises for b.csv and succeeds for every other file. -/
def w7_mapper : Mapper := fun p =>
  if p = "b.csv" then .error "MappingError: malformed completion"
  else .ok (ColumnMapping.mk "spending_is_positive" none)

/-- One raw row per file, tagged with the path. -/
def w7_data : CsvData := fun p => [RawRow.mk "2024-01-01" ("DESC " ++ p) 10 "Misc"]

/-- A one-row Chase-style raw file used by concrete witnesses. -/
def w9_rows : List RawRow := [RawRow.mk "2024-01-01" "STARBUCKS" (85/2) "Food"]

/-- The standard rows persisted for w9_rows. -/
def w9_out : List StdRow :=
  (ingest_csv ok_search empty_cache (ColumnMapping.mk "spending_is_negative" none)
    "chase.csv" w9_rows).1

/-! ## Theorems -/

/-- A kept block contributes block_text_part, so the filterMap of the
extraction loop is the map of text_of over the filter of is_text_dict. -/
theorem filterMap_block_eq_filter_map (blocks : List ContentBlock) :
    blocks.filterMap block_text_part = (blocks.filter is_text_dict).map text_of := by
  induction blocks with
  | nil => rfl
  | cons b bs ih =>
    cases b with
    | dict ty text =>
      by_cases h : ty = some "text" <;>
        simp [block_text_part, is_text_dict, text_of, h, ih]
    | nonDict => simp [block_text_part, is_text_dict, ih]

/-- C2: the structured-query tool accepts an input only if the stripped,
upper-cased query starts with SELECT or PRAGMA, and whenever the
upper-cased query contains one of the forbidden keywords at any position
the tool returns an error string (a rejected outcome) instead of
executing the query; being a total function, the guard raises nothing. -/
theorem query_guard_read_only (q : String) :
    (∀ r, query_database q = .execute r →
      (pyStartsWith (pyUpper (pyStrip q)) "SELECT" ||
       pyStartsWith (pyUpper (pyStrip q)) "PRAGMA") = true) ∧
    (∀ w, w ∈ forbidden → containsSub (pyUpper (pyStrip q)) w = true →
      ∃ msg, query_database q = .rejected msg) := by
  constructor
  · intro r hr
    by_cases h : (pyStartsWith (pyUpper (pyStrip q)) "SELECT" ||
        pyStartsWith (pyUpper (pyStrip q)) "PRAGMA") = true
    · exact h
    · have hrej : query_database q =
          .rejected "Error: Only SELECT and PRAGMA queries are allowed" := by
        simp [query_database, h]
      rw [hrej] at hr
      exact absurd hr (by simp)
  · intro w hw hsub
    by_cases h1 : (pyStartsWith (pyUpper (pyStrip q)) "SELECT" ||
        pyStartsWith (pyUpper (pyStrip q)) "PRAGMA") = true
    · have hany : (forbidden.any fun w => containsSub (pyUpper (pyStrip q)) w) = true :=
        List.any_eq_true.mpr ⟨w, hw, hsub⟩
      exact ⟨"Error: Query contains forbidden operation. Only SELECT queries allowed.",
        by simp [query_database, h1, hany]⟩
    · exact ⟨"Error: Only SELECT and PRAGMA queries are allowed",
        by simp [query_database, h1]⟩

/-- Witness for query_guard_read_only: an accepted SELECT starts with
SELECT after normalization, and the query DROP TABLE transactions is
answered with an error string. -/
theorem query_guard_read_only_witness :
    (query_database "SELECT * FROM transactions LIMIT 1" =
      .execute "SELECT * FROM transactions LIMIT 1" ∧
     (pyStartsWith (pyUpper (pyStrip "SELECT * FROM transactions LIMIT 1")) "SELECT" ||
      pyStartsWith (pyUpper (pyStrip "SELECT * FROM transactions LIMIT 1")) "PRAGMA") = true) ∧
    ("DROP" ∈ forbidden ∧
      containsSub (pyUpper (pyStrip "DROP TABLE transactions;")) "DROP" = true ∧
      ∃ msg, query_database "DROP TABLE transactions;" = .rejected msg) :=
  ⟨⟨by decide, (query_guard_read_only "SELECT * FROM transactions LIMIT 1").1
      "SELECT * FROM transactions LIMIT 1" (by decide)⟩,
   ⟨by decide, by decide,
    (query_guard_read_only "DROP TABLE transactions;").2 "DROP" (by decide) (by decide)⟩⟩

/-- C10: answer extraction returns a string content unchanged; for a list
content exactly the dict blocks of type text contribute, in order, joined
with newline; a list with no text-typed block yields the empty string;
and a text block with a missing text key contributes the empty string. -/
theorem chat_answer_extraction (s : String) (blocks : List ContentBlock) :
    chat_extract_answer (.ofString s) = s ∧
    chat_extract_answer (.ofList blocks) =
      String.intercalate "\n" ((blocks.filter is_text_dict).map text_of) ∧
    ((∀ b ∈ blocks, is_text_dict b = false) → chat_extract_answer (.ofList blocks) = "") ∧
    chat_extract_answer (.ofList [ContentBlock.dict (some "text") none]) = "" := by
  refine ⟨rfl, ?_, ?_, rfl⟩
  · simp [chat_extract_answer, filterMap_block_eq_filter_map]
  · intro hall
    have hfil : blocks.filter is_text_dict = [] := by
      rw [List.filter_eq_nil_iff]
      intro b hb
      simp [hall b hb]
    simp [chat_extract_answer, filterMap_block_eq_filter_map, hfil]
    rfl

/-- Two cache assignments at distinct keys commute. -/
theorem cache_insert_comm (c : Cache) (k k' v v' : String) (h : k ≠ k') :
    cache_insert (cache_insert c k v) k' v' = cache_insert (cache_insert c k' v') k v := by
  funext x
  unfold cache_insert
  by_cases h1 : x = k'
  · have h2 : ¬ x = k := fun h2 => h (h2.symm.trans h1)
    rw [if_pos h1, if_neg h2, if_pos h1]
  · by_cases h2 : x = k
    · rw [if_neg h1, if_pos h2, if_pos h2]
    · simp only [if_neg h1, if_neg h2]

/-- The keys of the association list returned by the enrichment batch
are exactly the input descriptions, in order: the batch returns a result
for every input. -/
theorem enrich_batch_keys (search : SearchTool) (cache : Cache) (l : List String) :
    (enrich_batch search cache l).1.map Prod.fst = l := by
  induction l generalizing cache with
  | nil => rfl
  | cons d ds ih => simp [enrich_batch, ih]

/-- The enrichment batch touches no cache key outside its input list. -/
theorem enrich_batch_cache_outside (search : SearchTool) (cache : Cache) (l : List String)
    (d : String) (hd : d ∉ l) :
    (enrich_batch search cache l).2.1 d = cache d := by
  induction l generalizing cache with
  | nil => rfl
  | cons a ds ih =>
    have hda : d ≠ a := fun h => hd (h ▸ List.mem_cons_self a ds)
    have hds : d ∉ ds := fun h => hd (List.mem_cons_of_mem a h)
    show (enrich_batch search (get_merchant_info search cache a).2.1 ds).2.1 d = cache d
    rw [ih _ hds]
    unfold get_merchant_info
    cases hc : cache a with
    | some v => rfl
    | none =>
      cases search a with
      | ok r => simp [cache_insert, hda]
      | fail e => rfl

/-- Inserting a cache entry for a key outside the batch input changes
neither the per-description results nor the number of external calls. -/
theorem enrich_batch_insert_outside (search : SearchTool) (l : List String) :
    ∀ (cache : Cache) (d v : String), d ∉ l →
      (enrich_batch search (cache_insert cache d v) l).1 = (enrich_batch search cache l).1 ∧
      (enrich_batch search (cache_insert cache d v) l).2.2 =
        (enrich_batch search cache l).2.2 := by
  induction l with
  | nil => intro cache d v _; exact ⟨rfl, rfl⟩
  | cons a ds ih =>
    intro cache d v hd
    have hda : a ≠ d := fun h => hd (h ▸ List.mem_cons_self a ds)
    have hds : d ∉ ds := fun h => hd (List.mem_cons_of_mem a h)
    have hmem : cache_insert cache d v a = cache a := by
      simp [cache_insert, hda]
    cases hc : cache a with
    | some w =>
      have hstep : get_merchant_info search (cache_insert cache d v) a =
          (w, cache_insert cache d v, false) := by
        unfold get_merchant_info; rw [hmem, hc]
      have hstep2 : get_merchant_info search cache a = (w, cache, false) := by
        unfold get_merchant_info; rw [hc]
      have hih := ih cache d v hds
      refine ⟨?_, ?_⟩ <;> simp only [enrich_batch, hstep, hstep2] <;>
        simp [hih.1, hih.2]
    | none =>
      cases hs : search a with
      | ok r =>
        have hstep1 : get_merchant_info search (cache_insert cache d v) a =
            (r, cache_insert (cache_insert cache d v) a r, true) := by
          unfold get_merchant_info; rw [hmem, hc, hs]
        have hstep : get_merchant_info search (cache_insert cache d v) a =
            (r, cache_insert (cache_insert cache a r) d v, true) := by
          rw [hstep1, cache_insert_comm cache d a v r (fun h => hda h.symm)]
        have hstep2 : get_merchant_info search cache a = (r, cache_insert cache a r, true) := by
          unfold get_merchant_info; rw [hc, hs]
        have hih := ih (cache_insert cache a r) d v hds
        refine ⟨?_, ?_⟩ <;> simp only [enrich_batch, hstep, hstep2] <;>
          simp [hih.1, hih.2]
      | fail e =>
        have hstep : get_merchant_info search (cache_insert cache d v) a =
            ("Unknown", cache_insert cache d v, true) := by
          unfold get_merchant_info; rw [hmem, hc, hs]
        have hstep2 : get_merchant_info search cache a = ("Unknown", cache, true) := by
          unfold get_merchant_info; rw [hc, hs]
        have hih := ih cache d v hds
        refine ⟨?_, ?_⟩ <;> simp only [enrich_batch, hstep, hstep2] <;>
          simp [hih.1, hih.2]

/-- For a duplicate-free batch, the number of external search calls is
the number of input descriptions missing from the session cache. -/
theorem enrich_batch_calls (search : SearchTool) (l : List String) :
    ∀ cache : Cache, l.Nodup →
      (enrich_batch search cache l).2.2 =
        (l.filter fun d => (cache d).isNone).length := by
  induction l with
  | nil => intro cache _; rfl
  | cons a ds ih =>
    intro cache hnd
    have ha : a ∉ ds := (List.nodup_cons.mp hnd).1
    have hds : ds.Nodup := (List.nodup_cons.mp hnd).2
    cases hc : cache a with
    | some w =>
      have hstep : get_merchant_info search cache a = (w, cache, false) := by
        unfold get_merchant_info; rw [hc]
      simp only [enrich_batch, hstep]
      rw [ih cache hds]
      simp [List.filter_cons, hc]
    | none =>
      cases hs : search a with
      | ok r =>
        have hstep : get_merchant_info search cache a = (r, cache_insert cache a r, true) := by
          unfold get_merchant_info; rw [hc, hs]
        simp only [enrich_batch, hstep]
        rw [(enrich_batch_insert_outside search ds cache a r ha).2, ih cache hds]
        simp [List.filter_cons, hc]
        omega
      | fail e =>
        have hstep : get_merchant_info search cache a = ("Unknown", cache, true) := by
          unfold get_merchant_info; rw [hc, hs]
        simp only [enrich_batch, hstep]
        rw [ih cache hds]
        simp [List.filter_cons, hc]
        omega

/-- Membership in the deduplication worker: the retained values are
those of the input that are not in the seen accumulator. -/
theorem mem_py_unique_aux (x : String) (l : List String) :
    ∀ seen : List String, x ∈ py_unique_aux seen l ↔ x ∈ l ∧ x ∉ seen := by
  induction l with
  | nil => intro seen; simp [py_unique_aux]
  | cons d ds ih =>
    intro seen
    by_cases hd : d ∈ seen
    · rw [py_unique_aux, if_pos hd, ih]
      constructor
      · rintro ⟨h1, h2⟩; exact ⟨List.mem_cons_of_mem d h1, h2⟩
      · rintro ⟨h1, h2⟩
        rcases List.mem_cons.mp h1 with h | h
        · exact absurd (h ▸ hd) h2
        · exact ⟨h, h2⟩
    · rw [py_unique_aux, if_neg hd]
      constructor
      · intro hx
        rcases List.mem_cons.mp hx with h | h
        · exact h ▸ ⟨List.mem_cons_self _ _, h ▸ hd⟩
        · have hih := (ih (d :: seen)).mp h
          exact ⟨List.mem_cons_of_mem d hih.1, fun hs => hih.2 (List.mem_cons_of_mem d hs)⟩
      · rintro ⟨h1, h2⟩
        rcases List.mem_cons.mp h1 with h | h
        · exact h ▸ List.mem_cons_self _ _
        · by_cases hxd : x = d
          · exact hxd ▸ List.mem_cons_self _ _
          · refine List.mem_cons_of_mem d ((ih (d :: seen)).mpr ⟨h, ?_⟩)
            intro hs
            exact (List.mem_cons.mp hs).elim hxd h2

/-- The deduplication worker returns a duplicate-free list. -/
theorem nodup_py_unique_aux (l : List String) :
    ∀ seen : List String, (py_unique_aux seen l).Nodup := by
  induction l with
  | nil => intro _; simp [py_unique_aux]
  | cons d ds ih =>
    intro seen
    by_cases hd : d ∈ seen
    · rw [py_unique_aux, if_pos hd]; exact ih seen
    · rw [py_unique_aux, if_neg hd]
      refine List.nodup_cons.mpr ⟨?_, ih (d :: seen)⟩
      intro hmem
      exact ((mem_py_unique_aux d ds (d :: seen)).mp hmem).2 (List.mem_cons_self _ _)

/-- Pandas unique returns a duplicate-free list. -/
theorem nodup_py_unique (l : List String) : (py_unique l).Nodup :=
  nodup_py_unique_aux l []

/-- Pandas unique keeps exactly the values of the input. -/
theorem mem_py_unique (x : String) (l : List String) : x ∈ py_unique l ↔ x ∈ l := by
  rw [py_unique, mem_py_unique_aux]
  simp

/-- Association list lookup walks past a mismatching head key. -/
theorem lookup_cons_ne (a d : String) (x : String) (rest : List (String × String))
    (h : a ≠ d) : ((a, x) :: rest).lookup d = rest.lookup d := by
  have hb : (d == a) = false := beq_eq_false_iff_ne.mpr (Ne.symm h)
  simp [List.lookup, hb]

/-- Association list lookup finds a matching head key. -/
theorem lookup_cons_eq (a : String) (x : String) (rest : List (String × String)) :
    ((a, x) :: rest).lookup a = some x := by
  simp [List.lookup]

/-- Every input description of a batch gets an entry in desc_map. -/
theorem enrich_batch_lookup_mem (search : SearchTool) (l : List String) :
    ∀ (cache : Cache) (d : String), d ∈ l →
      ∃ v, (enrich_batch search cache l).1.lookup d = some v := by
  induction l with
  | nil => intro _ _ h; cases h
  | cons a ds ih =>
    intro cache d hd
    by_cases hda : a = d
    · subst hda
      exact ⟨_, by simp only [enrich_batch]; exact lookup_cons_eq a _ _⟩
    · rcases List.mem_cons.mp hd with h | h
      · exact absurd h.symm hda
      · obtain ⟨v, hv⟩ := ih (get_merchant_info search cache a).2.1 d h
        refine ⟨v, ?_⟩
        simp only [enrich_batch]
        rw [lookup_cons_ne a d _ _ hda]
        exact hv

/-- In a duplicate-free batch, a description missing from the cache whose
external lookup raises resolves to the string Unknown in desc_map while
the session cache is left without an entry for it. -/
theorem enrich_batch_lookup_fail (search : SearchTool) (l : List String) :
    ∀ (cache : Cache) (d e : String), l.Nodup → d ∈ l → cache d = none →
      search d = .fail e →
      (enrich_batch search cache l).1.lookup d = some "Unknown" ∧
      (enrich_batch search cache l).2.1 d = none := by
  induction l with
  | nil => intro _ _ _ _ h; cases h
  | cons a ds ih =>
    intro cache d e hnd hd hc hf
    have ha : a ∉ ds := (List.nodup_cons.mp hnd).1
    have hds : ds.Nodup := (List.nodup_cons.mp hnd).2
    by_cases hda : a = d
    · subst hda
      have hstep : get_merchant_info search cache a = ("Unknown", cache, true) := by
        unfold get_merchant_info; rw [hc, hf]
      constructor
      · simp only [enrich_batch, hstep]
        exact lookup_cons_eq a _ _
      · simp only [enrich_batch, hstep]
        rw [enrich_batch_cache_outside search cache ds a ha]
        exact hc
    · rcases List.mem_cons.mp hd with h | h
      · exact absurd h.symm hda
      · have hd' : d ≠ a := fun hh => hda hh.symm
        have hcache : (get_merchant_info search cache a).2.1 d = cache d := by
          unfold get_merchant_info
          cases hca : cache a with
          | some w => rfl
          | none =>
            cases hsa : search a with
            | ok r => simp [cache_insert, hd']
            | fail e2 => rfl
        have hih := ih (get_merchant_info search cache a).2.1 d e hds h
          (hcache.trans hc) hf
        constructor
        · simp only [enrich_batch]
          rw [lookup_cons_ne a d _ _ hda]
          exact hih.1
        · simp only [enrich_batch]
          exact hih.2

/-- C4: the number of external search calls issued by one enrichment
batch of the ingestion equals the number of distinct descriptions of the
file that are not already in the session cache (duplicate rows and
descriptions cached by earlier batches in the session cause no call),
and the batch result desc_map covers exactly the unique descriptions. -/
theorem enrichment_unique_lookups (search : SearchTool) (cache : Cache)
    (mapping : ColumnMapping) (src : String) (rows : List RawRow) :
    (ingest_csv search cache mapping src rows).2.2 =
      ((py_unique (rows.map (·.desc))).filter fun d => (cache d).isNone).length ∧
    (enrich_batch search cache (py_unique (rows.map (·.desc)))).1.map Prod.fst =
      py_unique (rows.map (·.desc)) := by
  refine ⟨?_, enrich_batch_keys search cache _⟩
  show (enrich_batch search cache (py_unique (rows.map (·.desc)))).2.2 = _
  exact enrich_batch_calls search _ cache (nodup_py_unique _)

/-- C3 counterexample: a batch over the single description ACME whose
lookup raises does return the result Unknown for it, but the session
cache does not record Unknown for ACME: the except branch of
get_merchant_info only logs and returns, it never writes the cache, so
the part of the claim stating that Unknown is recorded in the session
cache is false. -/
theorem merchant_failure_cache_cex :
    (enrich_batch fail_search empty_cache ["ACME"]).1 = [("ACME", "Unknown")] ∧
    (enrich_batch fail_search empty_cache ["ACME"]).2.1 "ACME" = none := by
  exact ⟨rfl, rfl⟩

/-- C3 (amended): when one external merchant lookup raises, the batch
still completes with a result for every input description, the failed
description resolves to the string Unknown, and the failure is not
surfaced to the caller (the model is a total function: the except branch
absorbs the error); however the session cache is left unchanged for the
failed description, Unknown is not recorded in it. -/
theorem merchant_failure_resolves_unknown (search : SearchTool) (cache : Cache)
    (l : List String) (d e : String) (hnd : l.Nodup) (hd : d ∈ l)
    (hc : cache d = none) (hf : search d = .fail e) :
    (enrich_batch search cache l).1.map Prod.fst = l ∧
    (enrich_batch search cache l).1.lookup d = some "Unknown" ∧
    (enrich_batch search cache l).2.1 d = cache d := by
  refine ⟨enrich_batch_keys search cache l, ?_, ?_⟩
  · exact (enrich_batch_lookup_fail search l cache d e hnd hd hc hf).1
  · rw [hc]
    exact (enrich_batch_lookup_fail search l cache d e hnd hd hc hf).2

/-- Witness for merchant_failure_resolves_unknown: a two-description
batch where the ACME lookup raises and the TARGET lookup succeeds. -/
theorem merchant_failure_resolves_unknown_witness :
    (["ACME", "TARGET"] : List String).Nodup ∧ "ACME" ∈ (["ACME", "TARGET"] : List String) ∧
    empty_cache "ACME" = none ∧ acme_fail_search "ACME" = .fail "timeout" ∧
    ((enrich_batch acme_fail_search empty_cache ["ACME", "TARGET"]).1.map Prod.fst =
        ["ACME", "TARGET"] ∧
      (enrich_batch acme_fail_search empty_cache ["ACME", "TARGET"]).1.lookup "ACME" =
        some "Unknown" ∧
      (enrich_batch acme_fail_search empty_cache ["ACME", "TARGET"]).2.1 "ACME" =
        empty_cache "ACME") :=
  ⟨by decide, by decide, rfl, rfl,
   merchant_failure_resolves_unknown acme_fail_search empty_cache ["ACME", "TARGET"]
     "ACME" "timeout" (by decide) (by decide) rfl rfl⟩

/-- The ingestion writes exactly one standard row per raw row. -/
theorem ingest_csv_length (search : SearchTool) (cache : Cache) (mapping : ColumnMapping)
    (src : String) (rows : List RawRow) :
    (ingest_csv search cache mapping src rows).1.length = rows.length := by
  simp [ingest_csv, List.enum_length]

/-- The standard row at index i of one file batch: fresh id i, the date
and description of raw row i, the normalized amount, the category
default, the source file, and the desc_map lookup with empty fallback. -/
theorem ingest_csv_get (search : SearchTool) (cache : Cache) (mapping : ColumnMapping)
    (src : String) (rows : List RawRow) (i : ℕ)
    (ho : i < (ingest_csv search cache mapping src rows).1.length) (hi : i < rows.length) :
    (ingest_csv search cache mapping src rows).1.get ⟨i, ho⟩ =
      { id := i
        transaction_date := (rows.get ⟨i, hi⟩).date
        description := (rows.get ⟨i, hi⟩).desc
        amount := normalize_amount mapping.sign_convention (rows.get ⟨i, hi⟩).amount
        category := assign_category mapping.category_col (rows.get ⟨i, hi⟩).cat
        source_file := src
        enriched_info :=
          ((enrich_batch search cache (py_unique (rows.map (·.desc)))).1.lookup
            (rows.get ⟨i, hi⟩).desc).getD "" } := by
  simp [ingest_csv, List.get_eq_getElem, List.getElem_map, List.getElem_enum]

/-- C1: for every ingested CSV row the persisted amount is the negated
raw amount when the inferred sign convention is spending_is_negative and
the raw amount unchanged when it is spending_is_positive; the flip
happens exactly once per row during normalization, and it is the only
sign adjustment in the pipeline: the vector indexing pass copies every
persisted amount into the vector metadata unchanged. -/
theorem amount_sign_normalization (search : SearchTool) (cache : Cache)
    (mapping : ColumnMapping) (src : String) (rows : List RawRow)
    (client : QdrantClientState) :
    (ingest_csv search cache mapping src rows).1.length = rows.length ∧
    (∀ (i : ℕ) (hi : i < rows.length)
        (ho : i < (ingest_csv search cache mapping src rows).1.length),
      (mapping.sign_convention = "spending_is_negative" →
        ((ingest_csv search cache mapping src rows).1.get ⟨i, ho⟩).amount =
          -((rows.get ⟨i, hi⟩).amount)) ∧
      (mapping.sign_convention = "spending_is_positive" →
        ((ingest_csv search cache mapping src rows).1.get ⟨i, ho⟩).amount =
          (rows.get ⟨i, hi⟩).amount)) ∧
    (∀ recs,
      (sync_to_qdrant client (ingest_csv search cache mapping src rows).1).2 = .ok recs →
      recs.length = (ingest_csv search cache mapping src rows).1.length ∧
      ∀ (i : ℕ) (h1 : i < recs.length)
          (h2 : i < (ingest_csv search cache mapping src rows).1.length),
        (recs.get ⟨i, h1⟩).amount =
          ((ingest_csv search cache mapping src rows).1.get ⟨i, h2⟩).amount) := by
  refine ⟨ingest_csv_length search cache mapping src rows, ?_, ?_⟩
  · intro i hi ho
    have hget := ingest_csv_get search cache mapping src rows i ho hi
    constructor
    · intro h
      rw [hget]
      show normalize_amount mapping.sign_convention (rows.get ⟨i, hi⟩).amount = _
      rw [normalize_amount, if_pos h]
      ring
    · intro h
      rw [hget]
      show normalize_amount mapping.sign_convention (rows.get ⟨i, hi⟩).amount = _
      rw [normalize_amount, h, if_neg (by decide)]
  · intro recs hrec
    by_cases hemp : (ingest_csv search cache mapping src rows).1.isEmpty
    · unfold sync_to_qdrant at hrec
      rw [if_pos hemp] at hrec
      exact absurd hrec (by simp)
    · unfold sync_to_qdrant at hrec
      rw [if_neg hemp] at hrec
      simp only at hrec
      have hrecs : recs = (ingest_csv search cache mapping src rows).1.map build_vector_record := by
        exact (Except.ok.injEq _ _).mp hrec.symm
      subst hrecs
      refine ⟨List.length_map _ _, ?_⟩
      intro i h1 h2
      simp [List.get_eq_getElem, List.getElem_map, build_vector_record]

/-- Witness for amount_sign_normalization: one Chase-style row with raw
amount -42.5 under spending_is_negative is persisted as 42.5, and the
vector metadata carries the same amount. -/
theorem amount_sign_normalization_witness :
    ((ColumnMapping.mk "spending_is_negative" none).sign_convention =
      "spending_is_negative") ∧
    ((ingest_csv ok_search empty_cache (ColumnMapping.mk "spending_is_negative" none)
        "chase.csv" [RawRow.mk "2024-01-01" "STARBUCKS" (-(85/2)) "Food"]).1.get
      ⟨0, by decide⟩).amount =
      -(([RawRow.mk "2024-01-01" "STARBUCKS" (-(85/2)) "Food"].get ⟨0, by decide⟩).amount) :=
  ⟨rfl,
   ((amount_sign_normalization ok_search empty_cache
      (ColumnMapping.mk "spending_is_negative" none) "chase.csv"
      [RawRow.mk "2024-01-01" "STARBUCKS" (-(85/2)) "Food"]
      (QdrantClientState.mk none)).2.1 0 (by decide) (by decide)).1 rfl⟩

/-- C9: every row persisted by the primary ingestion path carries a
string enriched_info equal to the desc_map lookup of its description with
pandas fillna turning a missing entry into the empty string; moreover
desc_map covers every persisted description, so the stored field is never
null or missing. -/
theorem enriched_info_never_null (search : SearchTool) (cache : Cache)
    (mapping : ColumnMapping) (src : String) (rows : List RawRow) :
    ∀ r ∈ (ingest_csv search cache mapping src rows).1,
      r.enriched_info =
        ((enrich_batch search cache (py_unique (rows.map (·.desc)))).1.lookup
          r.description).getD "" ∧
      (((enrich_batch search cache (py_unique (rows.map (·.desc)))).1.lookup
          r.description) = none → r.enriched_info = "") ∧
      ∃ v, (enrich_batch search cache (py_unique (rows.map (·.desc)))).1.lookup
          r.description = some v := by
  intro r hr
  simp only [ingest_csv, List.mem_map] at hr
  obtain ⟨p, hmem, rfl⟩ := hr
  refine ⟨rfl, ?_, ?_⟩
  · intro hnone
    show (_ : Option String).getD "" = ""
    rw [hnone]
    rfl
  · apply enrich_batch_lookup_mem
    rw [mem_py_unique]
    exact List.mem_map_of_mem _ (List.snd_mem_of_mem_enum hmem)

/-- Witness for enriched_info_never_null: the persisted STARBUCKS row
stores the enrichment produced by the search tool. -/
theorem enriched_info_never_null_witness :
    (w9_out.get ⟨0, by decide⟩) ∈ w9_out ∧
    (w9_out.get ⟨0, by decide⟩).enriched_info =
      ((enrich_batch ok_search empty_cache (py_unique (w9_rows.map (·.desc)))).1.lookup
        (w9_out.get ⟨0, by decide⟩).description).getD "" :=
  ⟨List.get_mem w9_out 0 (by decide),
   (enriched_info_never_null ok_search empty_cache
      (ColumnMapping.mk "spending_is_negative" none) "chase.csv" w9_rows
      (w9_out.get ⟨0, by decide⟩) (List.get_mem w9_out 0 (by decide))).1⟩

/-- C5: after an indexing pass, the vector collection holds exactly one
record per row of the relational transactions table, independently of
the previous collection contents; re-indexing after appending extra rows
yields exactly the new relational count of vector records (full
destructive recreate, no accumulation). -/
theorem vector_rebuild_counts (client client2 : QdrantClientState)
    (db extra : List StdRow) (h : db ≠ []) :
    ((sync_to_qdrant client db).1.collection = some (db.map build_vector_record)) ∧
    (db.map build_vector_record).length = db.length ∧
    (sync_to_qdrant client db).1 = (sync_to_qdrant client2 db).1 ∧
    ((sync_to_qdrant (sync_to_qdrant client db).1 (db ++ extra)).1.collection =
      some ((db ++ extra).map build_vector_record)) ∧
    ((db ++ extra).map build_vector_record).length = db.length + extra.length := by
  have hemp : ¬ (db.isEmpty = true) := by
    cases db with
    | nil => exact absurd rfl h
    | cons a l => simp [List.isEmpty]
  have hemp2 : ¬ ((db ++ extra).isEmpty = true) := by
    cases db with
    | nil => exact absurd rfl h
    | cons a l => simp [List.isEmpty]
  refine ⟨?_, List.length_map _ _, ?_, ?_, ?_⟩
  · unfold sync_to_qdrant
    rw [if_neg hemp]
    rfl
  · unfold sync_to_qdrant
    rw [if_neg hemp, if_neg hemp]
  · unfold sync_to_qdrant
    rw [if_neg hemp2]
    rfl
  · simp

/-- Witness for vector_rebuild_counts: one row indexes to one record, and
re-indexing with a second row appended yields two records. -/
theorem vector_rebuild_counts_witness :
    ([w5_row] : List StdRow) ≠ [] ∧
    (sync_to_qdrant (QdrantClientState.mk none) [w5_row]).1.collection =
      some ([w5_row].map build_vector_record) ∧
    (sync_to_qdrant (sync_to_qdrant (QdrantClientState.mk none) [w5_row]).1
        ([w5_row] ++ [w5_row2])).1.collection =
      some (([w5_row] ++ [w5_row2]).map build_vector_record) ∧
    (([w5_row] ++ [w5_row2]).map build_vector_record).length = 1 + 1 := by
  have ht := vector_rebuild_counts (QdrantClientState.mk none)
    (QdrantClientState.mk (some [build_vector_record w5_row2])) [w5_row] [w5_row2]
    (List.cons_ne_nil _ _)
  exact ⟨List.cons_ne_nil _ _, ht.1, ht.2.2.2.1, ht.2.2.2.2⟩

/-- C6: against an empty transactions table the indexer raises before
creating or modifying any vector collection (the error is returned with
the client state unchanged, so no empty collection is produced); against
a non-empty table the error branch is not taken. -/
theorem empty_corpus_guard (client : QdrantClientState) (db : List StdRow) :
    (db = [] → sync_to_qdrant client db =
      (client, .error "No transactions found in database. Please ingest CSV files first.")) ∧
    (db ≠ [] → ∃ recs, (sync_to_qdrant client db).2 = .ok recs) := by
  constructor
  · intro h
    subst h
    rfl
  · intro h
    have hemp : ¬ (db.isEmpty = true) := by
      cases db with
      | nil => exact absurd rfl h
      | cons a l => simp [List.isEmpty]
    refine ⟨db.map build_vector_record, ?_⟩
    unfold sync_to_qdrant
    rw [if_neg hemp]

/-- Witness for empty_corpus_guard: an empty table leaves a pre-existing
collection untouched and surfaces the error; a one-row table indexes. -/
theorem empty_corpus_guard_witness :
    (([] : List StdRow) = [] ∧
      sync_to_qdrant (QdrantClientState.mk (some [build_vector_record w5_row])) [] =
        (QdrantClientState.mk (some [build_vector_record w5_row]),
          .error "No transactions found in database. Please ingest CSV files first.")) ∧
    (([w5_row] : List StdRow) ≠ [] ∧
      ∃ recs, (sync_to_qdrant (QdrantClientState.mk none) [w5_row]).2 = .ok recs) :=
  ⟨⟨rfl, (empty_corpus_guard (QdrantClientState.mk (some [build_vector_record w5_row])) []).1 rfl⟩,
   ⟨List.cons_ne_nil _ _,
    (empty_corpus_guard (QdrantClientState.mk none) [w5_row]).2 (List.cons_ne_nil _ _)⟩⟩

/-- C7 counterexample: ingesting a.csv, b.csv, c.csv where the schema
mapping of b.csv raises shows the failure aborting the rest of the
session: setup stops at b.csv, surfaces the error, and the rows of c.csv
are never ingested (the persisted source files are exactly a.csv). This
contradicts the claim that a mapping failure does not abort the
ingestion of the other files: money_rag.py line 66 loops without any
exception handler. -/
theorem mapping_error_aborts_cex :
    (setup_session_ingest w7_mapper w7_data ok_search ["a.csv", "b.csv", "c.csv"] []
        empty_cache).2.2 = some "MappingError: malformed completion" ∧
    ((setup_session_ingest w7_mapper w7_data ok_search ["a.csv", "b.csv", "c.csv"] []
        empty_cache).1.map (·.source_file)) = ["a.csv"] := by
  exact ⟨rfl, rfl⟩

/-- C7 (amended): a MappingError raised for one file propagates to the
caller of setup_session, preserving the rows of the files ingested before
the failure and aborting the ingestion of the files after it: the
returned table is exactly the table accumulated by the successful prefix,
and the error is surfaced for the whole session call. -/
theorem mapping_error_propagates (mapper : Mapper) (data : CsvData) (search : SearchTool)
    (ps qs : List String) (p e : String) (hp : mapper p = .error e) :
    ∀ (db : List StdRow) (cache : Cache) (db1 : List StdRow) (cache1 : Cache),
      setup_session_ingest mapper data search ps db cache = (db1, cache1, none) →
      setup_session_ingest mapper data search (ps ++ p :: qs) db cache =
        (db1, cache1, some e) := by
  induction ps with
  | nil =>
    intro db cache db1 cache1 hps
    simp only [setup_session_ingest] at hps
    injection hps with h1 h23
    injection h23 with h2 h3
    subst h1; subst h2
    simp only [List.nil_append, setup_session_ingest, hp]
  | cons a ps ih =>
    intro db cache db1 cache1 hps
    cases hma : mapper a with
    | error e2 =>
      simp only [setup_session_ingest, hma] at hps
      injection hps with h1 h23
      injection h23 with h2 h3
      cases h3
    | ok m =>
      simp only [setup_session_ingest, hma] at hps
      show setup_session_ingest mapper data search (a :: (ps ++ p :: qs)) db cache = _
      simp only [setup_session_ingest, hma]
      exact ih _ _ _ _ hps

/-- Witness for mapping_error_propagates: a.csv then the failing b.csv
then c.csv, starting from an empty table and cache. -/
theorem mapping_error_propagates_witness :
    w7_mapper "b.csv" = .error "MappingError: malformed completion" ∧
    setup_session_ingest w7_mapper w7_data ok_search ["a.csv"] [] empty_cache =
      ((setup_session_ingest w7_mapper w7_data ok_search ["a.csv"] [] empty_cache).1,
       (setup_session_ingest w7_mapper w7_data ok_search ["a.csv"] [] empty_cache).2.1,
       none) ∧
    setup_session_ingest w7_mapper w7_data ok_search (["a.csv"] ++ "b.csv" :: ["c.csv"])
        [] empty_cache =
      ((setup_session_ingest w7_mapper w7_data ok_search ["a.csv"] [] empty_cache).1,
       (setup_session_ingest w7_mapper w7_data ok_search ["a.csv"] [] empty_cache).2.1,
       some "MappingError: malformed completion") :=
  ⟨rfl, rfl,
   mapping_error_propagates w7_mapper w7_data ok_search ["a.csv"] ["c.csv"] "b.csv"
     "MappingError: malformed completion" rfl [] empty_cache _ _ rfl⟩

/-- Witness for chat_answer_extraction: a concrete mixed list with no
text block yields the empty answer. -/
theorem chat_answer_extraction_witness :
    (∀ b ∈ [ContentBlock.nonDict, ContentBlock.dict (some "image") (some "x")],
      is_text_dict b = false) ∧
    chat_extract_answer
      (.ofList [ContentBlock.nonDict, ContentBlock.dict (some "image") (some "x")]) = "" :=
  ⟨by decide,
   (chat_answer_extraction "hello"
      [ContentBlock.nonDict, ContentBlock.dict (some "image") (some "x")]).2.2.1 (by decide)⟩

end MoneyRag
